import Mathlib

/-!
Shallow embedding of the kync_rawkey capsule engine.

The repository seals a payload under a password-derived key:
`src/src/crypto.rs` holds the codec core (`protect`/`recover`) with one
error constant per internal fault, and `src/src/lib.rs` holds the external
plugin surface (`seal`/`open`, `capsule_format_uid`, `crypto_item_ids`)
with `error_t` values from `src/src/misc.rs`.

Modelling choices:
* Byte buffers are `List Nat`.
* The external primitives (Blake2b KDF, ChachaPoly AEAD) are an abstract
  `Primitives` record whose operations return `Except String _` — the
  `String` is the primitive's own error display, which the code only logs
  before mapping to its fixed error value.
* The OS random source is a byte tape: each draw consumes a prefix, so the
  salt and the nonce come from two distinct draws; a draw fails (as
  `OsRandom` may) when the tape is exhausted.
* Caller-provided / freshly zeroed output buffers are explicit: `writeAt`
  overwrites a prefix of a buffer, mirroring `seal_to`/`open_to` writing
  into a preallocated `vec![0; …]` slice.
-/

namespace RawKey

/-- `SALT_LEN` from lib.rs. -/
def SALT_LEN : Nat := 16

/-- `NONCE_LEN` from lib.rs. -/
def NONCE_LEN : Nat := 12

/-- `MAC_LEN` from lib.rs. -/
def MAC_LEN : Nat := 16

/-- `OVERHEAD = 16 + 12 + 16` (identical constant in crypto.rs and lib.rs). -/
def OVERHEAD : Nat := SALT_LEN + NONCE_LEN + MAC_LEN

/-- Overwrite the front of `buf` with `d`, keeping `buf`'s tail: the model of
a primitive writing its output into a preallocated mutable slice. -/
def writeAt (buf d : List Nat) : List Nat :=
  d.take buf.length ++ buf.drop d.length

/-- The trusted external primitives (Blake2b KDF, ChachaPoly IETF AEAD).
`kdfDerive base_key salt` models `Blake2b::kdf().derive(buf32, base_key,
salt, b"")`; `aeadSealTo key nonce plaintext` models
`ChachaPolyIetf::aead_cipher().seal_to(buf, plaintext, b"", key, nonce)`
returning `ciphertext ‖ tag`; `aeadOpenTo key nonce data` models `open_to`
returning the recovered plaintext.  The `String` in the error is the
primitive's error display (only ever logged by the code). -/
structure Primitives where
  kdfDerive : List Nat → List Nat → Except String (List Nat)
  aeadSealTo : List Nat → List Nat → List Nat → Except String (List Nat)
  aeadOpenTo : List Nat → List Nat → List Nat → Except String (List Nat)

/-- The five error constants of crypto.rs: `ERR_OSRANDOM`, `ERR_KDF`,
`ERR_SEAL`, `ERR_TRUNCATED`, `ERR_OPEN`. -/
inductive CryptoErr where
  | errOsrandom
  | errKdf
  | errSeal
  | errTruncated
  | errOpen
deriving DecidableEq

/-- crypto.rs `random`: fill a length-`n` buffer from the OS random source,
mapping a source failure to `ERR_OSRANDOM`.  The tape model returns the
drawn bytes together with the rest of the tape. -/
def random (rng : List Nat) (n : Nat) : Except CryptoErr (List Nat × List Nat) :=
  if n ≤ rng.length then .ok (rng.take n, rng.drop n) else .error .errOsrandom

/-- crypto.rs `kdf`: derive a 32-byte key into a fresh buffer, mapping a
primitive failure to `ERR_KDF`. -/
def kdf (P : Primitives) (base_key salt : List Nat) : Except CryptoErr (List Nat) :=
  match P.kdfDerive base_key salt with
  | .ok k => .ok k
  | .error _ => .error .errKdf

/-- crypto.rs `protect`: allocate `vec![0; data.len() + OVERHEAD]`, split it
into `salt[16]`, `nonce[12]` and the sealing region, fill salt and nonce by
two separate random draws, derive the key from `(key, salt)`, then
`seal_to` the data into the remaining `data.len() + 16` bytes. -/
def protect (P : Primitives) (rng key data : List Nat) : Except CryptoErr (List Nat) :=
  match random rng 16 with
  | .error e => .error e
  | .ok (salt, rng2) =>
    match random rng2 12 with
    | .error e => .error e
    | .ok (nonce, _) =>
      match kdf P key salt with
      | .error e => .error e
      | .ok k =>
        match P.aeadSealTo k nonce data with
        | .error _ => .error .errSeal
        | .ok ct => .ok (salt ++ nonce ++ writeAt (List.replicate (data.length + 16) 0) ct)

/-- crypto.rs `recover`: reject capsules shorter than `OVERHEAD`, split into
`salt[0:16]`, `nonce[16:28]`, remainder, allocate `vec![0; remainder.len()]`,
derive the key, `open_to` the remainder into the buffer and truncate it to
the returned plaintext length. -/
def recover (P : Primitives) (key data : List Nat) : Except CryptoErr (List Nat) :=
  if data.length < OVERHEAD then .error .errTruncated
  else
    match kdf P key (data.take 16) with
    | .error e => .error e
    | .ok k =>
      match P.aeadOpenTo k ((data.drop 16).take 12) ((data.drop 16).drop 12) with
      | .error _ => .error .errOpen
      | .ok pt =>
        .ok ((writeAt (List.replicate ((data.drop 16).drop 12).length 0) pt).take pt.length)

/-- misc.rs `error_t`: an error type identifier (`EPERM`, `EINVAL`, …), the
type-specific `info` word, and the description set via `set_desc`. -/
structure ErrorT where
  errorType : String
  info : Nat
  description : String
deriving DecidableEq

/-- `error_t::eperm(true).set_desc(b"Missing user secret")` (lib.rs). -/
def ERR_MISSING_SECRET : ErrorT := ⟨"EPERM", 1, "Missing user secret"⟩

/-- `error_t::einval(6).set_desc(b"Unsupported user secret length")` (lib.rs). -/
def ERR_SECRET_LEN : ErrorT := ⟨"EINVAL", 6, "Unsupported user secret length"⟩

/-- `error_t::einval(4).set_desc(b"Invalid crypto item")` (lib.rs `seal`). -/
def ERR_INVALID_ITEM : ErrorT := ⟨"EINVAL", 4, "Invalid crypto item"⟩

/-- `error_t::eilseq().set_desc(b"Truncated capsule")` (lib.rs `open`). -/
def ERR_TRUNCATED_CAPSULE : ErrorT := ⟨"EILSEQ", 0, "Truncated capsule"⟩

/-- `error_t::eilseq().set_desc(b"Invalid capsule")` (lib.rs `open`). -/
def ERR_INVALID_CAPSULE : ErrorT := ⟨"EILSEQ", 0, "Invalid capsule"⟩

/-- `error_t::enotfound().set_desc(b"This plugin does not support multiple
crypto items")` (lib.rs `crypto_item_ids`). -/
def ERR_NO_ITEMS : ErrorT := ⟨"ENOTFOUND", 0, "This plugin does not support multiple crypto items"⟩

/-- Outcome of an external (lib.rs) operation: success with the bytes made
visible to the caller, an `error_t` return, or `ensure!`-triggered
`process::abort` on an internal primitive fault. -/
inductive FfiResult (α : Type) where
  | ok (val : α)
  | err (e : ErrorT)
  | abort
deriving DecidableEq

/-- `UID` from lib.rs. -/
def UID : String := "de.KizzyCode.RawKey.7ABD7A67-49EC-46B6-B881-1B6FD7E03E01"

/-- The `UID` byte string (it is plain ASCII). -/
def UIDbytes : List Nat := UID.toList.map Char.toNat

/-- lib.rs `capsule_format_uid`: copy `UID` into the caller's buffer and
report `UID.len()` bytes written. -/
def capsule_format_uid (buf : List Nat) : List Nat × Nat :=
  (writeAt buf UIDbytes, UIDbytes.length)

/-- lib.rs `crypto_item_ids`: writes no item IDs and returns
`error_t::enotfound()` with its fixed description. -/
def crypto_item_ids : Except ErrorT (List String) := .error ERR_NO_ITEMS

/-- lib.rs `seal`: reject a non-null `crypto_item_id`, a missing user secret
and a secret length outside `1..=64`; then fill `salt[16]` and `nonce[12]`
of the caller's `key_len + OVERHEAD` buffer by two separate random draws,
derive the AEAD key from `(user_secret, salt)` and seal the payload into the
remaining `key_len + 16` bytes; any primitive failure trips `ensure!`
(process abort).  On success `*buf_written = key_len + OVERHEAD`. -/
def sealCapsule (P : Primitives) (rng key : List Nat) (crypto_item_id : Option (List Nat))
    (user_secret : Option (List Nat)) : FfiResult (List Nat) :=
  match crypto_item_id with
  | some _ => .err ERR_INVALID_ITEM
  | none =>
    match user_secret with
    | none => .err ERR_MISSING_SECRET
    | some us =>
      if 1 ≤ us.length ∧ us.length ≤ 64 then
        if 16 ≤ rng.length then
          if 12 ≤ (rng.drop 16).length then
            match P.kdfDerive us (rng.take 16) with
            | .error _ => .abort
            | .ok aead_key =>
              match P.aeadSealTo aead_key ((rng.drop 16).take 12) key with
              | .error _ => .abort
              | .ok ct =>
                .ok (rng.take 16 ++ (rng.drop 16).take 12 ++
                  writeAt (List.replicate (key.length + MAC_LEN) 0) ct)
          else .abort
        else .abort
      else .err ERR_SECRET_LEN

/-- lib.rs `open`: reject `capsule_len < OVERHEAD` first (truncated capsule),
then a missing user secret, then a secret length outside `1..=64`; split the
capsule into `salt[0:16]`, `nonce[16:28]` and the remainder, derive the AEAD
key (`ensure!`/abort on KDF failure), and `open_to` the remainder into the
caller's `capsule_len` buffer.  On success `*buf_written = capsule_len -
OVERHEAD`; on an AEAD open failure return the fixed invalid-capsule error. -/
def openCapsule (P : Primitives) (capsule : List Nat) (user_secret : Option (List Nat)) :
    FfiResult (List Nat) :=
  if OVERHEAD ≤ capsule.length then
    match user_secret with
    | none => .err ERR_MISSING_SECRET
    | some us =>
      if 1 ≤ us.length ∧ us.length ≤ 64 then
        match P.kdfDerive us (capsule.take SALT_LEN) with
        | .error _ => .abort
        | .ok aead_key =>
          match P.aeadOpenTo aead_key ((capsule.drop SALT_LEN).take NONCE_LEN)
              ((capsule.drop SALT_LEN).drop NONCE_LEN) with
          | .error _ => .err ERR_INVALID_CAPSULE
          | .ok pt =>
            .ok ((writeAt (List.replicate capsule.length 0) pt).take
              (capsule.length - OVERHEAD))
      else .err ERR_SECRET_LEN
  else .err ERR_TRUNCATED_CAPSULE

/-! ### Concrete primitive instances used to evaluate the development

`toyPrims` is a tiny executable stand-in satisfying the primitive contracts
the spec assumes (deterministic KDF, AEAD whose seal appends a 16-byte tag
and whose open verifies it); `failKdfPrims`/`failSealPrims` are variants
whose KDF resp. AEAD seal always fail, to exercise the fault paths. -/

/-- An executable primitive instance obeying the spec's primitive contracts. -/
def toyPrims : Primitives where
  kdfDerive := fun k s => .ok (List.replicate 32 ((k.sum + s.sum) % 256))
  aeadSealTo := fun _ _ p => .ok (p ++ List.replicate 16 7)
  aeadOpenTo := fun _ _ c =>
    if 16 ≤ c.length ∧ c.drop (c.length - 16) = List.replicate 16 7 then
      .ok (c.take (c.length - 16))
    else .error "tag mismatch"

/-- `toyPrims` with a KDF that always fails. -/
def failKdfPrims : Primitives :=
  { toyPrims with kdfDerive := fun _ _ => .error "kdf resource failure" }

/-- `toyPrims` with an AEAD seal that always fails. -/
def failSealPrims : Primitives :=
  { toyPrims with aeadSealTo := fun _ _ _ => .error "seal resource failure" }

/-! ### Buffer and list helper lemmas -/

theorem writeAt_length (buf d : List Nat) : (writeAt buf d).length = buf.length := by
  simp [writeAt]
  omega

theorem writeAt_of_length_eq {buf d : List Nat} (h : d.length = buf.length) :
    writeAt buf d = d := by
  unfold writeAt
  rw [← h, List.take_length, List.drop_eq_nil_of_le (le_of_eq h.symm), List.append_nil]

theorem writeAt_take {buf d : List Nat} (h : d.length ≤ buf.length) :
    (writeAt buf d).take d.length = d := by
  unfold writeAt
  rw [List.take_of_length_le h, List.take_left]

theorem capsule_split {salt nonce rest : List Nat} (hs : salt.length = 16)
    (hn : nonce.length = 12) :
    (salt ++ (nonce ++ rest)).take 16 = salt ∧
    ((salt ++ (nonce ++ rest)).drop 16).take 12 = nonce ∧
    ((salt ++ (nonce ++ rest)).drop 16).drop 12 = rest := by
  refine ⟨List.take_left' hs, ?_, ?_⟩ <;> rw [List.drop_left' hs]
  · exact List.take_left' hn
  · exact List.drop_left' hn

/-! ### Success / failure characterizations of the embedded operations -/

theorem protect_eq_of_short {P : Primitives} {rng : List Nat} (key data : List Nat)
    (h : rng.length < 28) : protect P rng key data = .error .errOsrandom := by
  unfold protect random
  by_cases h16 : 16 ≤ rng.length
  · have h12 : ¬ 12 ≤ rng.length - 16 := by omega
    simp [h16, h12]
  · simp [h16]

theorem protect_eq_of_rng {P : Primitives} {rng : List Nat} (key data : List Nat)
    (h : 28 ≤ rng.length) :
    protect P rng key data =
      match P.kdfDerive key (rng.take 16) with
      | .error _ => .error .errKdf
      | .ok k =>
        match P.aeadSealTo k ((rng.drop 16).take 12) data with
        | .error _ => .error .errSeal
        | .ok ct =>
          .ok (rng.take 16 ++ (rng.drop 16).take 12 ++
            writeAt (List.replicate (data.length + 16) 0) ct) := by
  have h16 : 16 ≤ rng.length := by omega
  have h12 : 12 ≤ (rng.drop 16).length := by simp; omega
  unfold protect random kdf
  simp only [if_pos h16, if_pos h12]
  cases P.kdfDerive key (rng.take 16) with
  | error e => rfl
  | ok k => cases P.aeadSealTo k ((rng.drop 16).take 12) data <;> rfl

theorem protect_ok_elim {P : Primitives} {rng key data c : List Nat}
    (h : protect P rng key data = .ok c) :
    ∃ k ct, 28 ≤ rng.length ∧ P.kdfDerive key (rng.take 16) = .ok k ∧
      P.aeadSealTo k ((rng.drop 16).take 12) data = .ok ct ∧
      c = rng.take 16 ++ (rng.drop 16).take 12 ++
        writeAt (List.replicate (data.length + 16) 0) ct := by
  rcases Nat.lt_or_ge rng.length 28 with hlt | hge
  · rw [protect_eq_of_short key data hlt] at h
    exact absurd h (by simp)
  · rw [protect_eq_of_rng key data hge] at h
    split at h
    · exact absurd h (by simp)
    next k hk =>
      split at h
      · exact absurd h (by simp)
      next ct hs =>
        injection h with h2
        exact ⟨k, ct, hge, hk, hs, h2.symm⟩

theorem OVERHEAD_eq : OVERHEAD = 44 := rfl

theorem sealCapsule_ok_elim {P : Primitives} {rng key : List Nat}
    {ci us : Option (List Nat)} {c : List Nat}
    (h : sealCapsule P rng key ci us = .ok c) :
    ∃ s k ct, ci = none ∧ us = some s ∧ 1 ≤ s.length ∧ s.length ≤ 64 ∧
      28 ≤ rng.length ∧ P.kdfDerive s (rng.take 16) = .ok k ∧
      P.aeadSealTo k ((rng.drop 16).take 12) key = .ok ct ∧
      c = rng.take 16 ++ (rng.drop 16).take 12 ++
        writeAt (List.replicate (key.length + 16) 0) ct := by
  unfold sealCapsule at h
  split at h
  · exact absurd h (by simp)
  split at h
  · exact absurd h (by simp)
  next s =>
    split at h
    case isFalse => exact absurd h (by simp)
    next hlen =>
      split at h
      case isFalse => exact absurd h (by simp)
      next h16 =>
        split at h
        case isFalse => exact absurd h (by simp)
        next h12 =>
          split at h
          · exact absurd h (by simp)
          next k hk =>
            split at h
            · exact absurd h (by simp)
            next ct hs =>
              injection h with h2
              refine ⟨s, k, ct, rfl, rfl, hlen.1, hlen.2, ?_, hk, hs, ?_⟩
              · have := List.length_drop 16 rng
                omega
              · rw [← h2]
                rfl

theorem recover_eq_of_short {P : Primitives} {key data : List Nat}
    (h : data.length < 44) : recover P key data = .error .errTruncated := by
  unfold recover
  rw [if_pos (by rw [OVERHEAD_eq]; exact h)]

theorem recover_eq_of_len {P : Primitives} {key data : List Nat} (h : 44 ≤ data.length) :
    recover P key data =
      match P.kdfDerive key (data.take 16) with
      | .error _ => .error .errKdf
      | .ok k =>
        match P.aeadOpenTo k ((data.drop 16).take 12) ((data.drop 16).drop 12) with
        | .error _ => .error .errOpen
        | .ok pt =>
          .ok ((writeAt (List.replicate ((data.drop 16).drop 12).length 0) pt).take
            pt.length) := by
  unfold recover kdf
  rw [if_neg (by rw [OVERHEAD_eq]; omega)]
  cases P.kdfDerive key (data.take 16) with
  | error e => rfl
  | ok k => cases P.aeadOpenTo k ((data.drop 16).take 12) ((data.drop 16).drop 12) <;> rfl

theorem openCapsule_eq_of_short {P : Primitives} {c : List Nat}
    (us : Option (List Nat)) (h : c.length < 44) :
    openCapsule P c us = .err ERR_TRUNCATED_CAPSULE := by
  unfold openCapsule
  rw [if_neg (by rw [OVERHEAD_eq]; omega)]

theorem openCapsule_eq_of_valid {P : Primitives} {c us : List Nat}
    (hc : 44 ≤ c.length) (h1 : 1 ≤ us.length) (h64 : us.length ≤ 64) :
    openCapsule P c (some us) =
      match P.kdfDerive us (c.take 16) with
      | .error _ => .abort
      | .ok k =>
        match P.aeadOpenTo k ((c.drop 16).take 12) ((c.drop 16).drop 12) with
        | .error _ => .err ERR_INVALID_CAPSULE
        | .ok pt =>
          .ok ((writeAt (List.replicate c.length 0) pt).take (c.length - 44)) := by
  unfold openCapsule
  rw [if_pos (by rw [OVERHEAD_eq]; exact hc)]
  show (if 1 ≤ us.length ∧ us.length ≤ 64 then _ else _) = _
  rw [if_pos ⟨h1, h64⟩]
  rfl

theorem openCapsule_eq_of_badSecret {P : Primitives} {c us : List Nat}
    (hc : 44 ≤ c.length) (hus : us.length = 0 ∨ 64 < us.length) :
    openCapsule P c (some us) = .err ERR_SECRET_LEN := by
  unfold openCapsule
  rw [if_pos (by rw [OVERHEAD_eq]; exact hc)]
  show (if 1 ≤ us.length ∧ us.length ≤ 64 then _ else _) = _
  rw [if_neg (by omega)]

/-! ### Evaluation lemmas for the toy primitives -/

theorem toy_seal_eval (k n p : List Nat) :
    toyPrims.aeadSealTo k n p = .ok (p ++ List.replicate 16 7) := rfl

theorem toy_open_eval (k n c : List Nat) :
    toyPrims.aeadOpenTo k n c =
      if 16 ≤ c.length ∧ c.drop (c.length - 16) = List.replicate 16 7 then
        .ok (c.take (c.length - 16))
      else .error "tag mismatch" := rfl

theorem toy_seal_len : ∀ k n pt ct, toyPrims.aeadSealTo k n pt = .ok ct →
    ct.length = pt.length + 16 := by
  intro k n pt ct h
  rw [toy_seal_eval] at h
  injection h with h
  rw [← h]
  simp

theorem toy_roundtrip : ∀ k n pt ct, toyPrims.aeadSealTo k n pt = .ok ct →
    toyPrims.aeadOpenTo k n ct = .ok pt := by
  intro k n pt ct h
  rw [toy_seal_eval] at h
  injection h with h
  subst h
  rw [toy_open_eval]
  have h1 : (pt ++ List.replicate 16 7).length = pt.length + 16 := by simp
  rw [if_pos ⟨by omega, by rw [h1, Nat.add_sub_cancel]; exact List.drop_left' rfl⟩]
  rw [h1, Nat.add_sub_cancel, List.take_left' rfl]

theorem toy_open_len : ∀ k n c pt, toyPrims.aeadOpenTo k n c = .ok pt →
    pt.length + 16 = c.length := by
  intro k n c pt h
  rw [toy_open_eval] at h
  split at h
  next hcond =>
    injection h with h
    rw [← h]
    simp
    omega
  next => exact absurd h (by simp)

/-- Field decomposition of a successfully assembled capsule: given the AEAD
length contract, the `writeAt` region is exactly the ciphertext‖tag, and the
three wire fields project back out. -/
theorem capsule_fields {rng p c ct : List Nat} (h28 : 28 ≤ rng.length)
    (hct : ct.length = p.length + 16)
    (hceq : c = rng.take 16 ++ (rng.drop 16).take 12 ++
      writeAt (List.replicate (p.length + 16) 0) ct) :
    c = rng.take 16 ++ ((rng.drop 16).take 12 ++ ct) ∧
    c.take 16 = rng.take 16 ∧
    (c.drop 16).take 12 = (rng.drop 16).take 12 ∧
    (c.drop 16).drop 12 = ct ∧
    c.length = p.length + 44 := by
  have hw : writeAt (List.replicate (p.length + 16) 0) ct = ct :=
    writeAt_of_length_eq (by simp [hct])
  rw [hw] at hceq
  have hsalt : (rng.take 16).length = 16 := by simp; omega
  have hnonce : ((rng.drop 16).take 12).length = 12 := by simp; omega
  rw [List.append_assoc] at hceq
  obtain ⟨e1, e2, e3⟩ :=
    @capsule_split (rng.take 16) ((rng.drop 16).take 12) ct hsalt hnonce
  refine ⟨hceq, ?_, ?_, ?_, ?_⟩
  · rw [hceq]; exact e1
  · rw [hceq]; exact e2
  · rw [hceq]; exact e3
  · rw [hceq]
    simp only [List.length_append, hsalt, hnonce, hct]
    omega

/-! ### Concrete inputs used by the witnesses -/

/-- A 28-byte random tape: enough for one 16-byte and one 12-byte draw. -/
def rng0 : List Nat := List.replicate 28 9

/-- A 1-byte user secret. -/
def secret0 : List Nat := [1]

/-- A 2-byte payload. -/
def payload0 : List Nat := [5, 6]

/-- The capsule `protect toyPrims rng0 secret0 payload0` assembles. -/
def capsule0 : List Nat :=
  List.replicate 16 9 ++ List.replicate 12 9 ++ ([5, 6] ++ List.replicate 16 7)

/-- The 44-byte capsule sealing the empty payload under `toyPrims`/`rng0`. -/
def capsule44 : List Nat :=
  List.replicate 16 9 ++ List.replicate 12 9 ++ List.replicate 16 7

/-! ### The claims -/

/-- C1: for every user secret `s` with `1 ≤ len(s) ≤ 64` and every payload
`p` (empty included), opening a sealed capsule with the same secret returns
the original payload — under the spec's contracts for the trusted AEAD
primitive (seal emits `ciphertext ‖ tag` of length `len(p) + 16`, and open
inverts seal under the same key and nonce). -/
theorem protect_recover_roundtrip (P : Primitives) (rng s p c : List Nat)
    (hs1 : 1 ≤ s.length) (hs64 : s.length ≤ 64)
    (hsealLen : ∀ k n pt ct, P.aeadSealTo k n pt = .ok ct → ct.length = pt.length + 16)
    (hrt : ∀ k n pt ct, P.aeadSealTo k n pt = .ok ct → P.aeadOpenTo k n ct = .ok pt)
    (hc : protect P rng s p = .ok c) :
    recover P s c = .ok p := by
  obtain ⟨k, ct, h28, hk, hseal, hceq⟩ := protect_ok_elim hc
  have hct := hsealLen _ _ _ _ hseal
  obtain ⟨-, e1, e2, e3, hlen⟩ := capsule_fields h28 hct hceq
  have hopen : P.aeadOpenTo k ((rng.drop 16).take 12) ct = .ok p := hrt _ _ _ _ hseal
  rw [recover_eq_of_len (by omega), e1, e2, e3]
  simp only [hk, hopen]
  exact congrArg Except.ok (writeAt_take (by simp only [List.length_replicate]; omega))

/-- C1 witness: a concrete seal/open round trip through the toy primitives. -/
theorem protect_recover_roundtrip_witness :
    recover toyPrims secret0 capsule0 = .ok payload0 :=
  protect_recover_roundtrip toyPrims rng0 secret0 payload0 capsule0
    (by decide) (by decide) toy_seal_len toy_roundtrip (by rfl)

/-- C2: every capsule produced by crypto.rs `protect` or lib.rs `seal`
has length exactly `len(payload) + 44` — structurally, with no contract on
the primitives, because the output is the fully preallocated buffer. -/
theorem seal_length_law (P : Primitives) (rng s p c c2 : List Nat)
    (ci us : Option (List Nat)) :
    (protect P rng s p = .ok c → c.length = p.length + 44) ∧
    (sealCapsule P rng p ci us = .ok c2 → c2.length = p.length + 44) := by
  constructor
  · intro h
    obtain ⟨k, ct, h28, hk, hseal, hceq⟩ := protect_ok_elim h
    have hsalt : (rng.take 16).length = 16 := by simp; omega
    have hnonce : ((rng.drop 16).take 12).length = 12 := by simp; omega
    rw [hceq]
    simp only [List.length_append, hsalt, hnonce, writeAt_length, List.length_replicate]
    omega
  · intro h
    obtain ⟨s2, k, ct, -, -, -, -, h28, hk, hseal, hceq⟩ := sealCapsule_ok_elim h
    have hsalt : (rng.take 16).length = 16 := by simp; omega
    have hnonce : ((rng.drop 16).take 12).length = 12 := by simp; omega
    rw [hceq]
    simp only [List.length_append, hsalt, hnonce, writeAt_length, List.length_replicate]
    omega

/-- C2 witness: a 2-byte payload gives a 46-byte capsule via `protect`, and
the empty payload gives exactly a 44-byte capsule via lib.rs `seal`. -/
theorem seal_length_law_witness :
    capsule0.length = payload0.length + 44 ∧
    capsule44.length = List.length ([] : List Nat) + 44 :=
  ⟨(seal_length_law toyPrims rng0 secret0 payload0 capsule0 capsule44 none
      (some secret0)).1 (by rfl),
   (seal_length_law toyPrims rng0 secret0 [] capsule0 capsule44 none
      (some secret0)).2 (by rfl)⟩

/-- C5: a successfully sealed capsule is laid out as
`salt[16] ‖ nonce[12] ‖ ciphertext[n] ‖ tag[16]`: its first 16 bytes are the
first random draw (the salt), its next 12 bytes are the second, separate
random draw (the 12 tape bytes after the salt draw — not derived from the
salt), the AEAD key is derived from `(user_secret, salt)`, and the remaining
`n + 16` bytes are exactly the AEAD's `ciphertext ‖ tag` output.  Holds for
both crypto.rs `protect` and lib.rs `seal`, under the AEAD seal length
contract. -/
theorem seal_layout (P : Primitives) (rng s p c : List Nat)
    (hsealLen : ∀ k n pt ct, P.aeadSealTo k n pt = .ok ct → ct.length = pt.length + 16) :
    (protect P rng s p = .ok c →
      ∃ k ct, P.kdfDerive s (rng.take 16) = .ok k ∧
        P.aeadSealTo k ((rng.drop 16).take 12) p = .ok ct ∧
        ct.length = p.length + 16 ∧
        c.take 16 = rng.take 16 ∧
        (c.drop 16).take 12 = (rng.drop 16).take 12 ∧
        (c.drop 16).drop 12 = ct) ∧
    (sealCapsule P rng p none (some s) = .ok c →
      ∃ k ct, P.kdfDerive s (rng.take 16) = .ok k ∧
        P.aeadSealTo k ((rng.drop 16).take 12) p = .ok ct ∧
        ct.length = p.length + 16 ∧
        c.take 16 = rng.take 16 ∧
        (c.drop 16).take 12 = (rng.drop 16).take 12 ∧
        (c.drop 16).drop 12 = ct) := by
  constructor
  · intro h
    obtain ⟨k, ct, h28, hk, hseal, hceq⟩ := protect_ok_elim h
    have hct := hsealLen _ _ _ _ hseal
    obtain ⟨-, e1, e2, e3, -⟩ := capsule_fields h28 hct hceq
    exact ⟨k, ct, hk, hseal, hct, e1, e2, e3⟩
  · intro h
    obtain ⟨s2, k, ct, -, hs2, -, -, h28, hk, hseal, hceq⟩ := sealCapsule_ok_elim h
    injection hs2 with hs2
    subst hs2
    have hct := hsealLen _ _ _ _ hseal
    obtain ⟨-, e1, e2, e3, -⟩ := capsule_fields h28 hct hceq
    exact ⟨k, ct, hk, hseal, hct, e1, e2, e3⟩

/-- C5 witness: the concrete capsule decomposes into the two tape draws and
the toy AEAD output. -/
theorem seal_layout_witness :
    ∃ k ct, toyPrims.kdfDerive secret0 (rng0.take 16) = .ok k ∧
      toyPrims.aeadSealTo k ((rng0.drop 16).take 12) payload0 = .ok ct ∧
      ct.length = payload0.length + 16 ∧
      capsule0.take 16 = rng0.take 16 ∧
      (capsule0.drop 16).take 12 = (rng0.drop 16).take 12 ∧
      (capsule0.drop 16).drop 12 = ct :=
  (seal_layout toyPrims rng0 secret0 payload0 capsule0 toy_seal_len).1 (by rfl)

/-- C3: any capsule shorter than 44 bytes is rejected with the
truncated-capsule error with no cryptographic work (the result is the same
constant for every primitive instance `P` and every secret, so no KDF or
AEAD outcome can influence it), while a 44-byte capsule proceeds to key
derivation and AEAD verification: its result is exactly determined by the
KDF and AEAD-open outcomes. -/
theorem truncation_boundary (P : Primitives) (c us : List Nat)
    (sOpt : Option (List Nat)) :
    (c.length < 44 →
      recover P us c = .error .errTruncated ∧
      openCapsule P c sOpt = .err ERR_TRUNCATED_CAPSULE) ∧
    (c.length = 44 → 1 ≤ us.length → us.length ≤ 64 →
      openCapsule P c (some us) =
        match P.kdfDerive us (c.take 16) with
        | .error _ => .abort
        | .ok k =>
          match P.aeadOpenTo k ((c.drop 16).take 12) ((c.drop 16).drop 12) with
          | .error _ => .err ERR_INVALID_CAPSULE
          | .ok pt =>
            .ok ((writeAt (List.replicate c.length 0) pt).take (c.length - 44))) := by
  constructor
  · intro h
    exact ⟨recover_eq_of_short h, openCapsule_eq_of_short sOpt h⟩
  · intro h44 h1 h64
    exact openCapsule_eq_of_valid (by omega) h1 h64

/-- C3 witness: a 10-byte capsule is rejected as truncated, and a concrete
44-byte capsule reaches AEAD verification (here: fails authentication). -/
theorem truncation_boundary_witness :
    recover toyPrims [1] (List.replicate 10 0) = .error .errTruncated ∧
    openCapsule toyPrims (List.replicate 44 0) (some [1]) = .err ERR_INVALID_CAPSULE := by
  constructor
  · exact ((truncation_boundary toyPrims (List.replicate 10 0) [1] none).1 (by decide)).1
  · rw [(truncation_boundary toyPrims (List.replicate 44 0) [1] none).2 (by decide)
      (by decide) (by decide)]
    rfl

/-- C4: for a well-formed capsule (length ≥ 44) and an in-policy secret, any
AEAD open failure — whatever the primitive's own `reason` — yields the one
fixed invalid-capsule error value: lib.rs returns the constant
`EILSEQ`/"Invalid capsule", crypto.rs `recover` the constant `ERR_OPEN`.
The returned value does not depend on `reason`, so wrong password and
corrupted ciphertext are externally indistinguishable. -/
theorem open_single_error (P : Primitives) (us c k : List Nat) (reason : String)
    (hc : 44 ≤ c.length) (h1 : 1 ≤ us.length) (h64 : us.length ≤ 64)
    (hk : P.kdfDerive us (c.take 16) = .ok k)
    (hfail : P.aeadOpenTo k ((c.drop 16).take 12) ((c.drop 16).drop 12) = .error reason) :
    openCapsule P c (some us) = .err ERR_INVALID_CAPSULE ∧
    recover P us c = .error .errOpen := by
  constructor
  · rw [openCapsule_eq_of_valid hc h1 h64]
    simp only [hk, hfail]
  · rw [recover_eq_of_len hc]
    simp only [hk, hfail]

/-- C4 witness: an all-zero 44-byte capsule fails authentication under the
toy primitives and yields the fixed invalid-capsule errors. -/
theorem open_single_error_witness :
    openCapsule toyPrims (List.replicate 44 0) (some secret0) = .err ERR_INVALID_CAPSULE ∧
    recover toyPrims secret0 (List.replicate 44 0) = .error .errOpen :=
  open_single_error toyPrims secret0 (List.replicate 44 0) (List.replicate 32 1)
    "tag mismatch" (by decide) (by decide) (by decide) (by rfl) (by rfl)

/-- C6: for a capsule of length ≥ 44 and an in-policy secret, open consumes
`salt = c[0:16]`, `nonce = c[16:28]`, remainder `c[28:]` (visible in the
`take`/`drop` segments fed to the KDF and AEAD), and on success returns
exactly `len(remainder) - 16 = len(c) - 44` bytes — the scratch buffer
truncated to the plaintext, given the AEAD contract that open yields
`len(remainder) - 16` bytes. -/
theorem open_split_and_length (P : Primitives) (us c k pt : List Nat)
    (hc : 44 ≤ c.length) (h1 : 1 ≤ us.length) (h64 : us.length ≤ 64)
    (hk : P.kdfDerive us (c.take 16) = .ok k)
    (hopen : P.aeadOpenTo k ((c.drop 16).take 12) ((c.drop 16).drop 12) = .ok pt)
    (hptlen : pt.length + 16 = ((c.drop 16).drop 12).length) :
    openCapsule P c (some us) = .ok pt ∧
    recover P us c = .ok pt ∧
    pt.length = c.length - 44 := by
  have hrem : ((c.drop 16).drop 12).length = c.length - 28 := by simp
  have hlen : pt.length = c.length - 44 := by omega
  refine ⟨?_, ?_, hlen⟩
  · rw [openCapsule_eq_of_valid hc h1 h64]
    simp only [hk, hopen]
    rw [← hlen]
    have hle : pt.length ≤ (List.replicate c.length 0).length := by
      simp only [List.length_replicate]
      omega
    exact congrArg FfiResult.ok (writeAt_take hle)
  · rw [recover_eq_of_len hc]
    simp only [hk, hopen]
    have hle : pt.length ≤ (List.replicate ((c.drop 16).drop 12).length 0).length := by
      simp only [List.length_replicate]
      omega
    exact congrArg Except.ok (writeAt_take hle)

/-- C6 witness: the concrete 46-byte capsule opens to its 2-byte payload,
`46 - 44 = 2`. -/
theorem open_split_and_length_witness :
    openCapsule toyPrims capsule0 (some secret0) = .ok payload0 ∧
    recover toyPrims secret0 capsule0 = .ok payload0 ∧
    payload0.length = capsule0.length - 44 :=
  open_split_and_length toyPrims secret0 capsule0 (List.replicate 32 145) payload0
    (by decide) (by decide) (by decide) (by rfl) (by rfl) (by decide)

/-- C7 counterexample: with a zero-length user secret and a 0-byte capsule,
`open` returns the truncated-capsule error, not the unsupported-secret-length
error — the capsule-length check runs first, so the claim as stated (open
always fails with the unsupported-secret-length error for out-of-policy
secrets) is false at this input. -/
theorem secret_length_cex :
    openCapsule toyPrims [] (some []) = .err ERR_TRUNCATED_CAPSULE ∧
    ERR_TRUNCATED_CAPSULE ≠ ERR_SECRET_LEN := by
  exact ⟨rfl, by decide⟩

/-- C7 amended: a secret of length 0 or > 64 makes `seal` fail with the
unsupported-secret-length error, and makes `open` fail with that error
whenever the capsule is at least 44 bytes (for shorter capsules the
truncated-capsule check fires first); a missing secret gives the distinct
missing-secret error; and the unsupported-secret-length error differs from
the missing-secret, invalid-capsule and truncated-capsule errors.  All these
rejections are constants independent of the primitives `P`, i.e. they happen
before any cryptographic work. -/
theorem secret_length_policy (P : Primitives) (rng key c us : List Nat)
    (hus : us.length = 0 ∨ 64 < us.length) :
    sealCapsule P rng key none (some us) = .err ERR_SECRET_LEN ∧
    (44 ≤ c.length → openCapsule P c (some us) = .err ERR_SECRET_LEN) ∧
    sealCapsule P rng key none none = .err ERR_MISSING_SECRET ∧
    (44 ≤ c.length → openCapsule P c none = .err ERR_MISSING_SECRET) ∧
    ERR_SECRET_LEN ≠ ERR_MISSING_SECRET ∧
    ERR_SECRET_LEN ≠ ERR_INVALID_CAPSULE ∧
    ERR_SECRET_LEN ≠ ERR_TRUNCATED_CAPSULE := by
  refine ⟨?_, ?_, rfl, ?_, by decide, by decide, by decide⟩
  · unfold sealCapsule
    show (if 1 ≤ us.length ∧ us.length ≤ 64 then _ else _) = _
    rw [if_neg (by omega)]
  · intro hc
    exact openCapsule_eq_of_badSecret hc hus
  · intro hc
    unfold openCapsule
    rw [if_pos (by rw [OVERHEAD_eq]; exact hc)]

/-- C7 amended witness: the empty secret is rejected by `seal`, and by
`open` on a 44-byte capsule. -/
theorem secret_length_policy_witness :
    sealCapsule toyPrims rng0 payload0 none (some []) = .err ERR_SECRET_LEN ∧
    openCapsule toyPrims (List.replicate 44 1) (some []) = .err ERR_SECRET_LEN :=
  ⟨(secret_length_policy toyPrims rng0 payload0 (List.replicate 44 1) []
      (Or.inl rfl)).1,
   (secret_length_policy toyPrims rng0 payload0 (List.replicate 44 1) []
      (Or.inl rfl)).2.1 (by decide)⟩

/-- C8: during crypto.rs `protect`, a random-source failure, a KDF failure
and an AEAD seal failure each produce their own distinct error kind
(`ERR_OSRANDOM`, `ERR_KDF`, `ERR_SEAL`), and a failing `protect` never
returns an output buffer (the result type is a sum — the error constructor
carries no bytes); in lib.rs `seal` a random-source failure is likewise
fatal (`ensure!` aborts the process), so no buffer reaches the caller
there either. -/
theorem seal_fault_kinds (P : Primitives) (rng key data : List Nat) :
    (rng.length < 28 → protect P rng key data = .error .errOsrandom) ∧
    (∀ us, 1 ≤ us.length ∧ us.length ≤ 64 → rng.length < 28 →
      sealCapsule P rng data none (some us) = .abort) ∧
    (∀ r, 28 ≤ rng.length → P.kdfDerive key (rng.take 16) = .error r →
      protect P rng key data = .error .errKdf) ∧
    (∀ k r, 28 ≤ rng.length → P.kdfDerive key (rng.take 16) = .ok k →
      P.aeadSealTo k ((rng.drop 16).take 12) data = .error r →
      protect P rng key data = .error .errSeal) ∧
    (CryptoErr.errOsrandom ≠ CryptoErr.errKdf ∧
      CryptoErr.errOsrandom ≠ CryptoErr.errSeal ∧
      CryptoErr.errKdf ≠ CryptoErr.errSeal) ∧
    (∀ e c, protect P rng key data = .error e → protect P rng key data ≠ .ok c) := by
  refine ⟨fun h => protect_eq_of_short key data h, ?_, ?_, ?_,
    ⟨by decide, by decide, by decide⟩, ?_⟩
  · intro us hus hshort
    unfold sealCapsule
    show (if 1 ≤ us.length ∧ us.length ≤ 64 then _ else _) = _
    rw [if_pos hus]
    by_cases h16 : 16 ≤ rng.length
    · rw [if_pos h16, if_neg (by simp only [List.length_drop]; omega)]
    · rw [if_neg h16]
  · intro r h28 hk
    rw [protect_eq_of_rng key data h28]
    simp only [hk]
  · intro k r h28 hk hs
    rw [protect_eq_of_rng key data h28]
    simp only [hk, hs]
  · intro e c he
    rw [he]
    simp

/-- C8 witness: an exhausted random source, a failing KDF and a failing AEAD
seal each hit their own fault kind on concrete inputs. -/
theorem seal_fault_kinds_witness :
    protect toyPrims [0, 0, 0] [1] [2] = .error .errOsrandom ∧
    sealCapsule toyPrims [0, 0, 0] [2] none (some [1]) = .abort ∧
    protect failKdfPrims rng0 [1] [2] = .error .errKdf ∧
    protect failSealPrims rng0 [1] [2] = .error .errSeal :=
  ⟨(seal_fault_kinds toyPrims [0, 0, 0] [1] [2]).1 (by decide),
   (seal_fault_kinds toyPrims [0, 0, 0] [1] [2]).2.1 [1] (by decide) (by decide),
   (seal_fault_kinds failKdfPrims rng0 [1] [2]).2.2.1 "kdf resource failure"
     (by decide) (by rfl),
   (seal_fault_kinds failSealPrims rng0 [1] [2]).2.2.2.1 (List.replicate 32 145)
     "seal resource failure" (by decide) (by rfl) (by rfl)⟩

/-- C9 counterexample: the configuration-enumeration query does not return
the supported construction name — `crypto_item_ids` returns no successful
item list at all (`toOption` is `none`): it is the fixed `ENOTFOUND`
error. -/
theorem crypto_item_ids_cex :
    crypto_item_ids.toOption = none ∧ crypto_item_ids = .error ERR_NO_ITEMS :=
  ⟨rfl, rfl⟩

/-- C9 amended: the identity/format query always returns the one fixed
opaque UID string (independent of the caller's buffer), while the
configuration-enumeration query returns no construction name: it fails with
the fixed `ENOTFOUND` error stating the plugin does not support multiple
crypto items. -/
theorem queries_fixed (buf : List Nat) (h : buf.length = UIDbytes.length) :
    capsule_format_uid buf = (UIDbytes, UIDbytes.length) ∧
    crypto_item_ids = .error ERR_NO_ITEMS := by
  refine ⟨?_, rfl⟩
  unfold capsule_format_uid
  rw [writeAt_of_length_eq h.symm]

/-- C9 amended witness: the UID query on a correctly sized buffer. -/
theorem queries_fixed_witness :
    capsule_format_uid (List.replicate UIDbytes.length 0) = (UIDbytes, UIDbytes.length) ∧
    crypto_item_ids = .error ERR_NO_ITEMS :=
  queries_fixed (List.replicate UIDbytes.length 0) (by simp)

/-- C10: in lib.rs `open` the capsule-length check precedes the user-secret
checks: a capsule shorter than 44 bytes yields the truncated-capsule error
even when the secret is missing entirely or has out-of-policy length. -/
theorem length_check_first (P : Primitives) (c us : List Nat)
    (hshort : c.length < 44) :
    openCapsule P c none = .err ERR_TRUNCATED_CAPSULE ∧
    ((us.length = 0 ∨ 64 < us.length) →
      openCapsule P c (some us) = .err ERR_TRUNCATED_CAPSULE) :=
  ⟨openCapsule_eq_of_short none hshort,
   fun _ => openCapsule_eq_of_short (some us) hshort⟩

/-- C10 witness: a 1-byte capsule with a missing secret, and with a 65-byte
secret, both report the truncated capsule. -/
theorem length_check_first_witness :
    openCapsule toyPrims [3] none = .err ERR_TRUNCATED_CAPSULE ∧
    openCapsule toyPrims [3] (some (List.replicate 65 0)) = .err ERR_TRUNCATED_CAPSULE :=
  ⟨(length_check_first toyPrims [3] (List.replicate 65 0) (by decide)).1,
   (length_check_first toyPrims [3] (List.replicate 65 0) (by decide)).2
     (Or.inr (by decide))⟩

end RawKey
